import Mathlib

/-!
Verification of the North-Indian-Cuisine-Search-System repository.

This file shallowly embeds the Python code of the repository:
  * `clean_process_indian_food.py`  — ingredient-text cleaning and the
    Kaggle-CSV processing stage (`clean_ingredient_text`,
    `is_north_indian_dish`, `process_kaggle_dataset`,
    `generate_rag_documents`);
  * `build_vector_database.py`      — the batched ingestion pipeline
    (`_store_documents_batch`, `_create_general_documents`) and the three
    retrieval functions (`search_recipe_ingredients`,
    `search_ingredient_usage`, `search_general_food`);
  * `streamlit_rag_app_fixed.py`    — the result filtering of
    `display_search_results`.

Modelling conventions:
  * Python strings are `String` / `List Char`; regular-expression
    substitutions are embedded as explicit left-to-right scanners that
    reproduce the leftmost-match semantics of `re.sub` for the concrete
    patterns appearing in the source (ASCII subset of `\s`, `\d`,
    `str.strip`, `str.isdigit`; recipe text is assumed newline-free, as CSV
    ingredient cells are).
  * Distances and confidences are `ℚ` (the Python floats carry exact
    decimal values in every claim considered here).
  * The external vector store (ChromaDB) is modelled by its documented
    behaviour at the call sites the code uses: `collection.add` is an
    insert; ids that already exist in the collection are skipped, never
    overwritten (`add` is not `upsert`).  Query faults of the store and of
    the embedding model are modelled with `Except`.
  * Several scanners use an explicit fuel argument equal to the input
    length so that all definitions are structurally recursive and reduce
    inside the kernel; every recursive call consumes at least one
    character, so the fuel never runs out on the initial call.
-/

namespace NICS

/-! ## Character-level utilities (Python `\s`, `\d`, `strip`, `isdigit`) -/

/-- The Python regex class `\s` and the default `str.strip` characters
(ASCII subset). -/
def isWsChar (c : Char) : Bool :=
  c = ' ' || c = '\t' || c = '\n' || c = '\r' || c = '\x0b' || c = '\x0c'

/-- The Python regex class `\d` (ASCII subset). -/
def isDigitChar (c : Char) : Bool :=
  c.isDigit

/-- Python `str.strip()`: drop leading and trailing whitespace. -/
def trimChars (l : List Char) : List Char :=
  ((l.dropWhile isWsChar).reverse.dropWhile isWsChar).reverse

/-- Python `str.strip()` on `String`. -/
def pyStrip (s : String) : String :=
  String.mk (trimChars s.toList)

/-- Python `str.isdigit()` (ASCII subset): non-empty and all digits. -/
def strIsDigit (l : List Char) : Bool :=
  !l.isEmpty && l.all isDigitChar

/-- Python `text.split(',')`: split at every comma, keeping empty pieces. -/
def splitComma : List Char → List (List Char)
  | [] => [[]]
  | c :: rest =>
    if c = ',' then [] :: splitComma rest
    else
      match splitComma rest with
      | [] => [[c]]
      | grp :: grps => (c :: grp) :: grps

/-- Case-sensitive literal match: if `s` starts with `pat`, return the
remaining suffix. -/
def matchLit : List Char → List Char → Option (List Char)
  | [], s => some s
  | _ :: _, [] => none
  | p :: ps, c :: cs => if c = p then matchLit ps cs else none

/-- Case-insensitive literal match (Python `re.IGNORECASE`, ASCII). -/
def matchLitCI : List Char → List Char → Option (List Char)
  | [], s => some s
  | _ :: _, [] => none
  | p :: ps, c :: cs => if c.toLower = p.toLower then matchLitCI ps cs else none

/-- Try a list of alternatives in order (regex alternation `a|b|...`). -/
def firstAlt (m : List Char → List Char → Option (List Char)) :
    List (List Char) → List Char → Option (List Char)
  | [], _ => none
  | p :: ps, s =>
    match m p s with
    | some r => some r
    | none => firstAlt m ps s

/-- Python `pat in s` (substring test) on `List Char`. -/
def containsSub (hay pat : List Char) : Bool :=
  (List.range (hay.length + 1)).any (fun i => pat.isPrefixOf (hay.drop i))

/-- Python `str.lower()` (ASCII), producing the character list. -/
def lowerChars (s : String) : List Char :=
  s.toList.map Char.toLower

/-! ## `clean_ingredient_text` (clean_process_indian_food.py, lines 37-66) -/

/-- The unit alternatives of the quantity regex
`\d+\s*(cups?|tbsp|tsp|tablespoons?|teaspoons?|grams?|kg|lbs?|ml|liters?|pieces?)`,
expanded in the order the regex engine tries them (greedy `s?` first). -/
def unitAlts : List (List Char) :=
  (["cups", "cup", "tbsp", "tsp", "tablespoons", "tablespoon",
    "teaspoons", "teaspoon", "grams", "gram", "kg", "lbs", "lb",
    "ml", "liters", "liter", "pieces", "piece"]).map String.toList

/-- One attempted match of the quantity pattern at the head of `s`:
one-or-more digits, optional whitespace, then a unit word. -/
def dropQuantity (s : List Char) : Option (List Char) :=
  if (s.takeWhile isDigitChar).isEmpty then none
  else firstAlt matchLit unitAlts ((s.dropWhile isDigitChar).dropWhile isWsChar)

/-- Left-to-right scan applying `re.sub` of the quantity pattern with the
empty string: every leftmost non-overlapping match is removed.  `fuel` is
the length of the initial input (each step consumes at least one
character). -/
def scanUnitsF : Nat → List Char → List Char
  | 0, l => l
  | _, [] => []
  | fuel + 1, c :: cs =>
    match dropQuantity (c :: cs) with
    | some rest => scanUnitsF fuel rest
    | none => c :: scanUnitsF fuel cs

/-- `re.sub(r'\d+\s*(cups?|tbsp|tsp|tablespoons?|teaspoons?|grams?|kg|lbs?|ml|liters?|pieces?)', '', text)`. -/
def scanUnits (l : List Char) : List Char :=
  scanUnitsF l.length l

/-- `re.sub(r'\s*-\s*.*$', '', item)`: truncate at the first hyphen,
also removing the whitespace run immediately before it. -/
def cutHyphen (s : List Char) : List Char :=
  if s.any (fun c => c = '-') then
    ((s.takeWhile (fun c => !(c = '-'))).reverse.dropWhile isWsChar).reverse
  else s

/-- One attempted match of `\s*\([^)]*\)` at the head of `s`. -/
def dropParen (s : List Char) : Option (List Char) :=
  match s.dropWhile isWsChar with
  | '(' :: t =>
    match t.dropWhile (fun c => !(c = ')')) with
    | ')' :: v => some v
    | _ => none
  | _ => none

/-- Scan for `re.sub(r'\s*\([^)]*\)', '', item)`. -/
def scanParensF : Nat → List Char → List Char
  | 0, l => l
  | _, [] => []
  | fuel + 1, c :: cs =>
    match dropParen (c :: cs) with
    | some rest => scanParensF fuel rest
    | none => c :: scanParensF fuel cs

/-- `re.sub(r'\s*\([^)]*\)', '', item)`. -/
def scanParens (l : List Char) : List Char :=
  scanParensF l.length l

/-- The cooking-instruction alternatives of
`\s*(to taste|as required|as needed|chopped|sliced|diced)` in regex order. -/
def phraseAlts : List (List Char) :=
  (["to taste", "as required", "as needed", "chopped", "sliced", "diced"]).map
    String.toList

/-- One attempted match of the instruction pattern at the head of `s`
(case-insensitive). -/
def dropPhrase (s : List Char) : Option (List Char) :=
  firstAlt matchLitCI phraseAlts (s.dropWhile isWsChar)

/-- Scan for `re.sub(r'\s*(to taste|as required|as needed|chopped|sliced|diced)', '', item, flags=re.IGNORECASE)`. -/
def scanPhrasesF : Nat → List Char → List Char
  | 0, l => l
  | _, [] => []
  | fuel + 1, c :: cs =>
    match dropPhrase (c :: cs) with
    | some rest => scanPhrasesF fuel rest
    | none => c :: scanPhrasesF fuel cs

/-- `re.sub` of the cooking-instruction pattern. -/
def scanPhrases (l : List Char) : List Char :=
  scanPhrasesF l.length l

/-- The per-item cleaning of `clean_ingredient_text`: strip, truncate at the
hyphen, remove parenthetical descriptions, remove cooking instructions,
strip again. -/
def cleanIngredientItem (item : List Char) : List Char :=
  trimChars (scanPhrases (scanParens (cutHyphen (trimChars item))))

/-- The final keep-filter and collection loop of `clean_ingredient_text`:
keep a cleaned item when it is truthy, longer than 2 characters, and not
`isdigit`. -/
def keepItems : List (List Char) → List String
  | [] => []
  | item :: rest =>
    let ci := cleanIngredientItem item
    if !ci.isEmpty && decide (2 < ci.length) && !strIsDigit ci then
      String.mk ci :: keepItems rest
    else
      keepItems rest

/-- `clean_ingredient_text` (clean_process_indian_food.py, lines 37-66).
`none` models a null/NaN pandas cell (`pd.isna`); an empty string is falsy
and also returns the empty list. -/
def cleanIngredientText (input : Option String) : List String :=
  match input with
  | none => []
  | some t =>
    if t = "" then []
    else keepItems (splitComma (scanUnits t.toList))

/-! ## `is_north_indian_dish` and `process_kaggle_dataset`
(clean_process_indian_food.py, lines 68-149) -/

/-- The `north_indian_cuisines` set (iteration order is irrelevant:
only `any` is applied to it). -/
def northIndianCuisines : List String :=
  ["Indian", "North Indian", "Punjabi", "Delhi", "Haryana",
   "Chandigarh", "Himachal Pradesh", "Rajasthani", "Mughlai"]

/-- The `priority_dishes` set. -/
def priorityDishes : List String :=
  ["chole", "bhature", "dal", "makhani", "butter chicken", "paneer",
   "naan", "roti", "paratha", "biryani", "korma", "tandoori",
   "aloo", "gobi", "rajma", "kadhi", "sarson", "makki", "tikka",
   "samosa", "pakora", "kulcha", "lassi", "raita", "kebab", "masala"]

/-- `is_north_indian_dish(recipe_name, cuisine)`. -/
def isNorthIndianDish (recipeName cuisine : String) : Bool :=
  (!(cuisine = "") &&
    northIndianCuisines.any (fun nc => containsSub (lowerChars cuisine) (lowerChars nc)))
  || priorityDishes.any (fun dish => containsSub (lowerChars recipeName) dish.toList)

/-- One CSV row after Python's `str(row.get(...))` conversions (a missing
cell yields `''`, a NaN cell yields `'nan'`, both already reflected in the
stored strings). -/
structure CsvRow where
  recipeName : String
  cuisine : String
  course : String
  ingredientsText : String
deriving DecidableEq, Repr

/-- A cleaned Recipe record as emitted by `process_kaggle_dataset`. -/
structure Recipe where
  id : String
  name : String
  cuisine : String
  course : String
  ingredients : List String
  ingredient_count : Nat
  source : String
  region : String
  original_ingredients_text : String
deriving DecidableEq, Repr

/-- Python `f"{n:04d}"` for the recipe ids. -/
def pad4 (n : Nat) : String :=
  (if n < 10 then "000" else if n < 100 then "00" else if n < 1000 then "0" else "")
    ++ toString n

/-- The `recipe_data` dictionary built at lines 127-137 of
clean_process_indian_food.py (arguments are the already-stripped strings
and the cleaned ingredient list). -/
def mkRecipe (row : CsvRow) (count : Nat) (ingredients : List String) : Recipe :=
  let cuisine := pyStrip row.cuisine
  let course := pyStrip row.course
  { id := "recipe_" ++ pad4 (count + 1)
    name := pyStrip row.recipeName
    cuisine := if !(cuisine = "") && !(cuisine = "nan") then cuisine else "North Indian"
    course := if !(course = "") && !(course = "nan") then course else "unknown"
    ingredients := ingredients
    ingredient_count := ingredients.length
    source := "kaggle_archanas_kitchen"
    region := "north_india"
    original_ingredients_text := pyStrip row.ingredientsText }

/-- The per-row body of the loop in `process_kaggle_dataset`
(clean_process_indian_food.py, lines 105-138).  `count` is
`len(processed_recipes)` at the moment the row is examined. -/
def processRow (row : CsvRow) (count : Nat) : Option Recipe :=
  let recipe_name := pyStrip row.recipeName
  let cuisine := pyStrip row.cuisine
  let ingredients_text := pyStrip row.ingredientsText
  if recipe_name = "" || ingredients_text = "" then none
  else if !isNorthIndianDish recipe_name cuisine then none
  else
    let ingredients := cleanIngredientText (some ingredients_text)
    if 3 ≤ ingredients.length then some (mkRecipe row count ingredients)
    else none

/-- The row loop of `process_kaggle_dataset` (the pandas chunking of 1000
rows iterates the very same rows in the same order, so the flat row list is
processed directly). -/
def processRows : List CsvRow → List Recipe → List Recipe
  | [], acc => acc
  | row :: rest, acc =>
    match processRow row acc.length with
    | some r => processRows rest (acc ++ [r])
    | none => processRows rest acc

/-- `process_kaggle_dataset` restricted to its row-processing core (file
input and the surrounding try/except are external I/O). -/
def processKaggleDataset (rows : List CsvRow) : List Recipe :=
  processRows rows []

/-! ## Document builders: `generate_rag_documents`
(clean_process_indian_food.py, lines 189-246) and
`_create_general_documents` (build_vector_database.py, lines 272-297) -/

/-- A metadata value: the source dictionaries mix strings and ints. -/
inductive MetaVal where
  | strV : String → MetaVal
  | natV : Nat → MetaVal
deriving DecidableEq, Repr

/-- A RAG document as built by the document builders (`typ` is the Python
key `type`). -/
structure RagDoc where
  id : String
  typ : String
  content : String
  metadata : List (String × MetaVal)
deriving DecidableEq, Repr

/-- Python `f"{n:02d}"` for the ingredient-document ids. -/
def pad2 (n : Nat) : String :=
  (if n < 10 then "0" else "") ++ toString n

/-- The main recipe document of `generate_rag_documents`. -/
def recipeDoc (r : Recipe) : RagDoc :=
  { id := r.id
    typ := "recipe"
    content :=
      "Recipe: " ++ r.name ++ " is a " ++ r.cuisine ++ " " ++ r.course
        ++ " dish from North Indian cuisine. "
        ++ "This recipe uses " ++ toString r.ingredient_count
        ++ " main ingredients: " ++ String.intercalate ", " r.ingredients ++ ". "
        ++ "This dish is typically served as a " ++ r.course
        ++ " and represents authentic North Indian cooking."
    metadata :=
      [("recipe_name", .strV r.name), ("cuisine", .strV r.cuisine),
       ("course", .strV r.course), ("region", .strV r.region),
       ("ingredient_count", .natV r.ingredient_count),
       ("all_ingredients", .strV (String.intercalate ", " r.ingredients)),
       ("source", .strV r.source)] }

/-- The per-ingredient documents of `generate_rag_documents`. -/
def ingredientDocs (r : Recipe) : List RagDoc :=
  r.ingredients.enum.map fun p =>
    { id := r.id ++ "_ing_" ++ pad2 (p.1 + 1)
      typ := "ingredient_usage"
      content :=
        "Ingredient: " ++ p.2 ++ " is used in " ++ r.name ++ ", a popular "
          ++ r.cuisine
          ++ " dish. This ingredient is essential for authentic North Indian"
          ++ " flavor and is commonly found in " ++ r.course ++ " preparations."
      metadata :=
        [("ingredient_name", .strV p.2), ("recipe_name", .strV r.name),
         ("cuisine", .strV r.cuisine), ("course", .strV r.course),
         ("region", .strV r.region), ("source", .strV r.source)] }

/-- `generate_rag_documents(all_recipes)`: for each recipe, its main
document followed by one document per ingredient, in input order. -/
def generateRagDocuments (recipes : List Recipe) : List RagDoc :=
  recipes.flatMap fun r => recipeDoc r :: ingredientDocs r

/-- The cuisine-focused document of `_create_general_documents`. -/
def generalDoc (r : Recipe) : RagDoc :=
  { id := "general_" ++ r.id
    typ := "general_info"
    content :=
      "North Indian " ++ r.course ++ " dish: " ++ r.name ++ " from "
        ++ r.cuisine ++ " cuisine. "
        ++ "Popular in North India, this " ++ r.course ++ " contains "
        ++ toString r.ingredient_count ++ " ingredients. "
        ++ "Typical ingredients: "
        ++ String.intercalate ", " (r.ingredients.take 5) ++ "..."
    metadata :=
      [("recipe_name", .strV r.name), ("cuisine", .strV r.cuisine),
       ("course", .strV r.course), ("region", .strV r.region),
       ("ingredient_count", .natV r.ingredient_count),
       ("source", .strV r.source)] }

/-- `_create_general_documents(recipes)`. -/
def createGeneralDocuments (recipes : List Recipe) : List RagDoc :=
  recipes.map generalDoc

/-! ## Batched ingestion: `_store_documents_batch`
(build_vector_database.py, lines 201-270) -/

/-- One record held by a ChromaDB collection. -/
structure StoredEntry where
  id : String
  doc : String
  metadata : List (String × MetaVal)
  embedding : List ℚ
deriving DecidableEq, Repr

/-- `collection.add(documents, metadatas, embeddings, ids)`: ChromaDB `add`
is an insert — an id that already exists in the collection is skipped (the
stored record is kept unchanged); `add` never overwrites (that is
`upsert`, which this code does not call). -/
def chromaAdd (coll : List StoredEntry) (new : List StoredEntry) : List StoredEntry :=
  new.foldl (fun c e => if c.any (fun x => x.id = e.id) then c else c ++ [e]) coll

/-- Membership of an id in a collection. -/
def idMem (coll : List StoredEntry) (i : String) : Bool :=
  coll.any (fun x => x.id = i)

/-- Build the entries of one batch: the aligned
`(ids, texts, metadatas, embeddings)` the code extracts, with the
embedding model as a black-box function `encode`. -/
def mkEntries (encode : String → List ℚ) (batch : List RagDoc) : List StoredEntry :=
  batch.map fun d => ⟨d.id, d.content, d.metadata, encode d.content⟩

/-- Python list slicing by `range(0, total, batch_size)`:
`documents[i:i+batch_size]` batches, in order, the last possibly shorter.
`fuel` is the number of documents (each step consumes at least one).
Defined for `batch_size ≥ 1`; Python raises `ValueError` on step 0. -/
def toBatchesF (bs : Nat) : Nat → List α → List (List α)
  | 0, _ => []
  | _, [] => []
  | fuel + 1, d :: ds => (d :: ds.take (bs - 1)) :: toBatchesF bs fuel (ds.drop (bs - 1))

/-- The batch partition of `_store_documents_batch`. -/
def toBatches (bs : Nat) (docs : List α) : List (List α) :=
  toBatchesF bs docs.length docs

/-- Result of the retry loop around one `collection.add`. -/
structure RetryOutcome where
  coll : List StoredEntry
  ok : Bool
  attempts : Nat
  retrySleeps : List Nat
deriving DecidableEq, Repr

/-- The retry loop of `_store_documents_batch` (lines 228-244):
`for retry in range(max_retries)` with `max_retries = 3`; a failing
non-final attempt sleeps 2 seconds and retries; the final failure is
re-raised and caught by the outer handler, which leaves the collection
unchanged.  `fails a` says whether attempt number `a` raises
(fault injection for the store). -/
def retryLoop (fails : Nat → Bool) (added orig : List StoredEntry) :
    Nat → Nat → RetryOutcome
  | _, 0 => ⟨orig, false, 0, []⟩
  | a, rem + 1 =>
    if fails a then
      if rem = 0 then ⟨orig, false, 1, []⟩
      else
        let r := retryLoop fails added orig (a + 1) rem
        ⟨r.coll, r.ok, r.attempts + 1, 2 :: r.retrySleeps⟩
    else ⟨added, true, 1, []⟩

/-- One batch of `_store_documents_batch`: encode the texts, then retry
`collection.add` up to 3 times.  `env b a` injects a store fault at
batch index `b`, attempt `a`. -/
def storeBatch (env : Nat → Nat → Bool) (encode : String → List ℚ)
    (batchIdx : Nat) (coll : List StoredEntry) (batch : List RagDoc) : RetryOutcome :=
  retryLoop (env batchIdx) (chromaAdd coll (mkEntries encode batch)) coll 0 3

/-- The batch loop of `_store_documents_batch`: after a batch fails all its
retries the exception is caught and the loop continues with the next batch.
Returns the final collection and `successful_batches`. -/
def ingestAll (env : Nat → Nat → Bool) (encode : String → List ℚ) :
    List (List RagDoc) → Nat → List StoredEntry → List StoredEntry × Nat
  | [], _, coll => (coll, 0)
  | b :: bs, i, coll =>
    let r := storeBatch env encode i coll b
    let rest := ingestAll env encode bs (i + 1) r.coll
    (rest.1, (if r.ok then 1 else 0) + rest.2)

/-- `_store_documents_batch(documents, collection_name, batch_size)` acting
on one collection. -/
def storeDocumentsBatch (env : Nat → Nat → Bool) (encode : String → List ℚ)
    (documents : List RagDoc) (batchSize : Nat) (coll : List StoredEntry) :
    List StoredEntry × Nat :=
  ingestAll env encode (toBatches batchSize documents) 0 coll

/-- The fault-free store environment: no attempt ever raises. -/
def envOk : Nat → Nat → Bool := fun _ _ => false

/-- Whether the retry loop for batch `i` under `env` reaches a successful
attempt (some attempt among 0,1,2 does not raise). -/
def batchOk (env : Nat → Nat → Bool) (i : Nat) : Bool :=
  (List.range 3).any fun a => !(env i a)

/-- Reference form of the batch loop: each batch is independently committed
with `collection.add` exactly when its retry loop succeeds; batches never
influence whether later batches run. -/
def ingestRef (env : Nat → Nat → Bool) (encode : String → List ℚ) :
    List (List RagDoc) → Nat → List StoredEntry → List StoredEntry
  | [], _, coll => coll
  | b :: bs, i, coll =>
    ingestRef env encode bs (i + 1)
      (if batchOk env i then chromaAdd coll (mkEntries encode b) else coll)

/-! ## Retrieval: `search_recipe_ingredients`, `search_ingredient_usage`,
`search_general_food` (build_vector_database.py, lines 303-390) -/

/-- The inner result group of `collection.query(...)` for one query text:
the parallel arrays `documents[0]`, `metadatas[0]`, `distances[0]`. -/
structure QueryReply (α : Type) where
  documents : List String
  metadatas : List α
  distances : List ℚ
deriving DecidableEq, Repr

/-- The formatting loop
`for i in range(len(results['documents'][0])): ...` shared by the three
search functions: walk the index list, reading
`documents[i]`, `metadatas[i]`, `distances[i]`; an out-of-range index is a
Python `IndexError` (`none`), caught by the surrounding `except`. -/
def rowsFrom (docs : List String) (metas : List α) (dists : List ℚ)
    (mk : String → α → ℚ → β) : List Nat → Option (List β)
  | [] => some []
  | i :: is =>
    match docs.get? i, metas.get? i, dists.get? i with
    | some doc, some m, some d =>
      match rowsFrom docs metas dists mk is with
      | some l => some (mk doc m d :: l)
      | none => none
    | _, _, _ => none

/-- The shared shape of the three search functions: a query-execution
fault (`Except.error`, the Python exception) is caught, printed, and
returned as the empty list; otherwise the hits are formatted in store
order. -/
def searchCore (mk : String → α → ℚ → β)
    (input : Except String (QueryReply α)) : List β :=
  match input with
  | .error _ => []
  | .ok reply =>
    match rowsFrom reply.documents reply.metadatas reply.distances mk
        (List.range reply.documents.length) with
    | some l => l
    | none => []

/-- The metadata fields `search_recipe_ingredients` reads
(`all_ingredients` via `.get` with default `''`, the rest by direct
indexing). -/
structure RecipeSearchMeta where
  recipe_name : String
  all_ingredients : Option String
  cuisine : String
  course : String
  source : String
deriving DecidableEq, Repr

/-- One formatted result of `search_recipe_ingredients`. -/
structure RecipeSearchResult where
  recipe_name : String
  ingredients : String
  cuisine : String
  course : String
  confidence : ℚ
  source : String
deriving DecidableEq, Repr

/-- The result dictionary built by `search_recipe_ingredients`
(`'confidence': 1 - results['distances'][0][i]`). -/
def mkRecipeResult (doc : String) (m : RecipeSearchMeta) (d : ℚ) : RecipeSearchResult :=
  { recipe_name := m.recipe_name
    ingredients := m.all_ingredients.getD ""
    cuisine := m.cuisine
    course := m.course
    confidence := 1 - d
    source := m.source }

/-- `search_recipe_ingredients` (build_vector_database.py, lines 303-331);
the store query outcome is the `Except` argument. -/
def searchRecipeIngredients
    (input : Except String (QueryReply RecipeSearchMeta)) : List RecipeSearchResult :=
  searchCore mkRecipeResult input

/-- The metadata fields `search_ingredient_usage` reads. -/
structure IngredientSearchMeta where
  ingredient_name : String
  recipe_name : String
  cuisine : String
  course : String
deriving DecidableEq, Repr

/-- One formatted result of `search_ingredient_usage`. -/
structure IngredientSearchResult where
  ingredient : String
  recipe_name : String
  cuisine : String
  course : String
  confidence : ℚ
  usage_context : String
deriving DecidableEq, Repr

/-- The result dictionary built by `search_ingredient_usage`
(`'usage_context': results['documents'][0][i][:100] + "..."`). -/
def mkIngredientResult (doc : String) (m : IngredientSearchMeta) (d : ℚ) :
    IngredientSearchResult :=
  { ingredient := m.ingredient_name
    recipe_name := m.recipe_name
    cuisine := m.cuisine
    course := m.course
    confidence := 1 - d
    usage_context := doc.take 100 ++ "..." }

/-- `search_ingredient_usage` (build_vector_database.py, lines 333-361). -/
def searchIngredientUsage
    (input : Except String (QueryReply IngredientSearchMeta)) : List IngredientSearchResult :=
  searchCore mkIngredientResult input

/-- The metadata fields `search_general_food` reads. -/
structure GeneralSearchMeta where
  recipe_name : String
  cuisine : String
  course : String
deriving DecidableEq, Repr

/-- One formatted result of `search_general_food`. -/
structure GeneralSearchResult where
  recipe_name : String
  cuisine : String
  course : String
  confidence : ℚ
  description : String
deriving DecidableEq, Repr

/-- The result dictionary built by `search_general_food`
(`'description': results['documents'][0][i][:150] + "..."`). -/
def mkGeneralResult (doc : String) (m : GeneralSearchMeta) (d : ℚ) : GeneralSearchResult :=
  { recipe_name := m.recipe_name
    cuisine := m.cuisine
    course := m.course
    confidence := 1 - d
    description := doc.take 150 ++ "..." }

/-- `search_general_food` (build_vector_database.py, lines 363-390). -/
def searchGeneralFood
    (input : Except String (QueryReply GeneralSearchMeta)) : List GeneralSearchResult :=
  searchCore mkGeneralResult input

/-! ## Result display: `display_search_results`
(streamlit_rag_app_fixed.py, lines 382-477) -/

/-- Python `zip` over three lists (truncates at the shortest). -/
def zip3 : List α → List β → List γ → List (α × β × γ)
  | a :: as, b :: bs, c :: cs => (a, b, c) :: zip3 as bs cs
  | _, _, _ => []

/-- The visible outcome of `display_search_results`: `errOut` is
`st.error` in the exception handler; `noResults` and `belowThreshold` are
the two `st.warning` early returns; `shown` renders the filtered results. -/
inductive DisplayOutcome (M : Type) where
  | errOut : String → DisplayOutcome M
  | noResults : DisplayOutcome M
  | belowThreshold : DisplayOutcome M
  | shown : List (String × M × ℚ × Nat) → DisplayOutcome M
deriving DecidableEq

/-- The filtering loop of `display_search_results`:
`for i, (doc, metadata, distance) in enumerate(zip(...)):
   confidence = 1 - distance;
   if confidence >= min_confidence: filtered_results.append((doc, metadata, confidence, i))`. -/
def displayFilterGo (minC : ℚ) : List (String × M × ℚ) → Nat → List (String × M × ℚ × Nat)
  | [], _ => []
  | (doc, m, dist) :: rest, i =>
    if minC ≤ 1 - dist then (doc, m, 1 - dist, i) :: displayFilterGo minC rest (i + 1)
    else displayFilterGo minC rest (i + 1)

/-- The confidence filter applied to one query reply. -/
def displayFilter (minC : ℚ) (docs : List String) (metas : List M) (dists : List ℚ) :
    List (String × M × ℚ × Nat) :=
  displayFilterGo minC (zip3 docs metas dists) 0

/-- `display_search_results(collection, query, model, num_results,
min_confidence)`: the store is queried once with exactly `num_results`;
an exception is `st.error`; an empty hit list and an empty filtered list
are the two warnings. -/
def displaySearchResults (store : Nat → Except String (QueryReply M))
    (numResults : Nat) (minC : ℚ) : DisplayOutcome M :=
  match store numResults with
  | .error e => .errOut e
  | .ok reply =>
    if reply.documents.isEmpty then .noResults
    else
      let filtered := displayFilter minC reply.documents reply.metadatas reply.distances
      if filtered.isEmpty then .belowThreshold
      else .shown filtered

/-- Specification-side reading of the filter (spec §4.4, §8): format every
retrieved candidate — confidence `1 − distance` paired with its retrieval
rank — and only afterwards keep exactly the ones at or above the
threshold. -/
def specCandidates (docs : List String) (metas : List M) (dists : List ℚ) :
    List (String × M × ℚ × Nat) :=
  (zip3 docs metas dists).enum.map fun p => (p.2.1, p.2.2.1, 1 - p.2.2.2, p.1)

/-! ## Lemmas about the cleaning stage -/

theorem toList_mk (l : List Char) : (String.mk l).toList = l := rfl

theorem length_toList (s : String) : s.length = s.toList.length := rfl

theorem keepItems_prop {items : List (List Char)} {s : String}
    (hs : s ∈ keepItems items) :
    s.toList ≠ [] ∧ 2 < s.toList.length ∧ strIsDigit s.toList = false := by
  induction items with
  | nil => simp [keepItems] at hs
  | cons item rest ih =>
    rw [keepItems] at hs
    by_cases h : (!(cleanIngredientItem item).isEmpty
        && decide (2 < (cleanIngredientItem item).length)
        && !strIsDigit (cleanIngredientItem item)) = true
    · rw [if_pos h] at hs
      rcases List.mem_cons.mp hs with h1 | h1
      · subst h1
        simp only [Bool.and_eq_true, Bool.not_eq_true', decide_eq_true_eq,
          List.isEmpty_eq_false] at h
        rw [toList_mk]
        exact ⟨h.1.1, h.1.2, h.2⟩
      · exact ih h1
    · rw [if_neg h] at hs
      exact ih hs

/-- C10: every ingredient string returned by `clean_ingredient_text` is
non-empty, longer than 2 characters, and not composed solely of digits;
a null/NaN (`none`) or empty input yields the empty list.  These are
exactly the early return at lines 44-45 and the keep-filter at line 63 of
clean_process_indian_food.py. -/
theorem c10_clean_ingredient_text :
    (cleanIngredientText none = [] ∧ cleanIngredientText (some "") = []) ∧
    ∀ (input : Option String) (s : String), s ∈ cleanIngredientText input →
      s ≠ "" ∧ 2 < s.length ∧ ¬(s.toList.all isDigitChar = true) := by
  refine ⟨⟨rfl, rfl⟩, fun input s hs => ?_⟩
  match input with
  | none => simp [cleanIngredientText] at hs
  | some t =>
    rw [cleanIngredientText] at hs
    by_cases ht : t = ""
    · rw [if_pos ht] at hs; simp at hs
    · rw [if_neg ht] at hs
      obtain ⟨hne, hlen, hdig⟩ := keepItems_prop hs
      refine ⟨?_, ?_, ?_⟩
      · intro h0; exact hne (by simp [h0])
      · exact hlen
      · intro hall
        rw [strIsDigit] at hdig
        rcases Bool.and_eq_false_iff.mp hdig with h1 | h1
        · exact absurd (by simpa using hne)
            (by simpa [List.isEmpty_eq_false] using h1)
        · rw [hall] at h1; cases h1

theorem processRow_prop {row : CsvRow} {n : Nat} {r : Recipe}
    (h : processRow row n = some r) :
    r.ingredient_count = r.ingredients.length ∧ 3 ≤ r.ingredients.length := by
  simp only [processRow] at h
  split at h
  · exact absurd h (by simp)
  · split at h
    · exact absurd h (by simp)
    · split at h
      · rename_i hge
        rcases Option.some_inj.mp h with rfl
        exact ⟨rfl, hge⟩
      · exact absurd h (by simp)

theorem processRows_prop {rows : List CsvRow} {acc : List Recipe}
    (hacc : ∀ r ∈ acc,
      r.ingredient_count = r.ingredients.length ∧ 3 ≤ r.ingredients.length) :
    ∀ r ∈ processRows rows acc,
      r.ingredient_count = r.ingredients.length ∧ 3 ≤ r.ingredients.length := by
  induction rows generalizing acc with
  | nil => simpa [processRows] using hacc
  | cons row rest ih =>
    rw [processRows]
    cases hrow : processRow row acc.length with
    | none => exact ih hacc
    | some r0 =>
      refine ih (fun r hr => ?_)
      rcases List.mem_append.mp hr with h1 | h1
      · exact hacc r h1
      · rcases List.mem_singleton.mp h1 with rfl
        exact processRow_prop hrow

/-- C9: every Recipe emitted by `process_kaggle_dataset` has
`ingredient_count` equal to the length of its `ingredients` list, and that
length is at least 3 (the `len(ingredients) >= 3` guard at line 126 of
clean_process_indian_food.py, which also sets
`'ingredient_count': len(ingredients)` at line 133). -/
theorem c9_recipe_invariant :
    ∀ (rows : List CsvRow) (r : Recipe), r ∈ processKaggleDataset rows →
      r.ingredient_count = r.ingredients.length ∧ 3 ≤ r.ingredients.length :=
  fun rows r hr => processRows_prop (by simp) r hr

/-- Witness for C9: the row invariant at a concrete CSV row that survives
all filters. -/
theorem c9_witness :
    (⟨"recipe_0001", "Chole Bhature", "Punjabi", "Lunch", ["rice", "salt", "ghee"], 3,
      "kaggle_archanas_kitchen", "north_india", "rice, salt, ghee"⟩ : Recipe) ∈
      processKaggleDataset [⟨"Chole Bhature", "Punjabi", "Lunch", "rice, salt, ghee"⟩] ∧
    (3 : Nat) = (["rice", "salt", "ghee"] : List String).length ∧
    3 ≤ (["rice", "salt", "ghee"] : List String).length :=
  ⟨by decide,
   c9_recipe_invariant [⟨"Chole Bhature", "Punjabi", "Lunch", "rice, salt, ghee"⟩]
     ⟨"recipe_0001", "Chole Bhature", "Punjabi", "Lunch", ["rice", "salt", "ghee"], 3,
      "kaggle_archanas_kitchen", "north_india", "rice, salt, ghee"⟩ (by decide)⟩

/-- Witness for C10: the docstring example input of
`clean_ingredient_text` and its first output string. -/
theorem c10_witness :
    "rice" ∈ cleanIngredientText (some "2 cups rice, 1 tsp salt, ghee - as required") ∧
    "rice" ≠ "" ∧ 2 < "rice".length ∧ ¬("rice".toList.all isDigitChar = true) :=
  ⟨by decide,
   c10_clean_ingredient_text.2 (some "2 cups rice, 1 tsp salt, ghee - as required")
     "rice" (by decide)⟩

/-! ## C8: determinism of the document builders -/

/-- C8: `generate_rag_documents` and `_create_general_documents` are pure
functions of the Recipe sequence — two runs on the same input produce the
same document list, and hence, position by position, identical id, content
and metadata.  In this embedding the builders are Lean functions of their
argument alone (the templating at clean_process_indian_food.py lines
201-240 and build_vector_database.py lines 276-295 reads nothing but the
recipe fields), so determinism is function congruence. -/
theorem c8_determinism :
    ∀ rs1 rs2 : List Recipe, rs1 = rs2 →
      (generateRagDocuments rs1 = generateRagDocuments rs2 ∧
       createGeneralDocuments rs1 = createGeneralDocuments rs2) ∧
      ∀ j : Nat,
        ((generateRagDocuments rs1).get? j).map (fun d => (d.id, d.content, d.metadata))
          = ((generateRagDocuments rs2).get? j).map (fun d => (d.id, d.content, d.metadata)) ∧
        ((createGeneralDocuments rs1).get? j).map (fun d => (d.id, d.content, d.metadata))
          = ((createGeneralDocuments rs2).get? j).map (fun d => (d.id, d.content, d.metadata)) := by
  intro rs1 rs2 h
  subst h
  exact ⟨⟨rfl, rfl⟩, fun j => ⟨rfl, rfl⟩⟩

/-- Witness for C8 at a one-recipe input. -/
theorem c8_witness :
    generateRagDocuments
        [⟨"recipe_0001", "Chole Bhature", "Punjabi", "Lunch", ["rice", "salt", "ghee"], 3,
          "kaggle_archanas_kitchen", "north_india", "rice, salt, ghee"⟩]
      = generateRagDocuments
        [⟨"recipe_0001", "Chole Bhature", "Punjabi", "Lunch", ["rice", "salt", "ghee"], 3,
          "kaggle_archanas_kitchen", "north_india", "rice, salt, ghee"⟩] ∧
    ((createGeneralDocuments
        [⟨"recipe_0001", "Chole Bhature", "Punjabi", "Lunch", ["rice", "salt", "ghee"], 3,
          "kaggle_archanas_kitchen", "north_india", "rice, salt, ghee"⟩]).get? 0).map
        (fun d => (d.id, d.content, d.metadata))
      = ((createGeneralDocuments
        [⟨"recipe_0001", "Chole Bhature", "Punjabi", "Lunch", ["rice", "salt", "ghee"], 3,
          "kaggle_archanas_kitchen", "north_india", "rice, salt, ghee"⟩]).get? 0).map
        (fun d => (d.id, d.content, d.metadata)) :=
  ⟨(c8_determinism _ _ rfl).1.1, ((c8_determinism _ _ rfl).2 0).2⟩

/-! ## Lemmas about the batch partition -/

theorem toBatchesF_nil (bs fuel : Nat) : toBatchesF bs fuel ([] : List α) = [] := by
  cases fuel <;> rfl

theorem toBatchesF_flatten {bs : Nat} (h1 : 1 ≤ bs) :
    ∀ (fuel : Nat) (l : List α), l.length ≤ fuel → (toBatchesF bs fuel l).flatten = l := by
  intro fuel
  induction fuel with
  | zero =>
    intro l hl
    rw [List.length_eq_zero.mp (Nat.le_zero.mp hl)]
    rfl
  | succ fuel ih =>
    intro l hl
    match l with
    | [] => rfl
    | d :: ds =>
      rw [toBatchesF, List.flatten_cons, ih (ds.drop (bs - 1)) (by
        rw [List.length_drop]
        simp only [List.length_cons] at hl
        omega)]
      simp [List.take_append_drop]

theorem toBatchesF_mem {bs : Nat} (h1 : 1 ≤ bs) :
    ∀ (fuel : Nat) (l : List α) (b : List α), b ∈ toBatchesF bs fuel l →
      l.length ≤ fuel → b ≠ [] ∧ b.length ≤ bs := by
  intro fuel
  induction fuel with
  | zero => intro l b hb _; simp [toBatchesF] at hb
  | succ fuel ih =>
    intro l b hb hl
    match l with
    | [] => rw [toBatchesF_nil] at hb; exact absurd hb (by simp)
    | d :: ds =>
      rw [toBatchesF] at hb
      rcases List.mem_cons.mp hb with h | h
      · subst h
        refine ⟨by simp, ?_⟩
        simp only [List.length_cons, List.length_take]
        omega
      · exact ih (ds.drop (bs - 1)) b h (by
          rw [List.length_drop]
          simp only [List.length_cons] at hl
          omega)

theorem toBatchesF_dropLast {bs : Nat} (h1 : 1 ≤ bs) :
    ∀ (fuel : Nat) (l : List α) (b : List α), b ∈ (toBatchesF bs fuel l).dropLast →
      l.length ≤ fuel → b.length = bs := by
  intro fuel
  induction fuel with
  | zero => intro l b hb _; simp [toBatchesF] at hb
  | succ fuel ih =>
    intro l b hb hl
    match l with
    | [] => rw [toBatchesF_nil] at hb; exact absurd hb (by simp)
    | d :: ds =>
      rw [toBatchesF] at hb
      have hdl : (ds.drop (bs - 1)).length ≤ fuel := by
        rw [List.length_drop]
        simp only [List.length_cons] at hl
        omega
      match hrest : toBatchesF bs fuel (ds.drop (bs - 1)) with
      | [] => rw [hrest] at hb; simp at hb
      | r :: rs =>
        rw [hrest, List.dropLast_cons₂] at hb
        rcases List.mem_cons.mp hb with h | h
        · subst h
          have hne : ds.drop (bs - 1) ≠ [] := by
            intro h0
            rw [h0, toBatchesF_nil] at hrest
            exact List.cons_ne_nil r rs hrest.symm
          have : bs - 1 < ds.length := by
            by_contra hcon
            exact hne (List.drop_eq_nil_of_le (by omega))
          simp only [List.length_cons, List.length_take]
          omega
        · exact ih (ds.drop (bs - 1)) b (by rw [hrest]; exact h) hdl

/-- C7: the ingestion pipeline partitions the document list into
consecutive batches (`documents[i:i+batch_size]` for
`i in range(0, total_docs, batch_size)`, build_vector_database.py lines
207-211): concatenating the batches in order gives back the input, every
batch is non-empty with at most `batch_size` documents, and every batch
except possibly the last has exactly `batch_size` documents. -/
theorem c7_batch_partition :
    ∀ {α : Type} (docs : List α) (bs : Nat), 1 ≤ bs →
      (toBatches bs docs).flatten = docs ∧
      (∀ b ∈ toBatches bs docs, b ≠ [] ∧ b.length ≤ bs) ∧
      (∀ b ∈ (toBatches bs docs).dropLast, b.length = bs) := by
  intro α docs bs h1
  exact ⟨toBatchesF_flatten h1 docs.length docs le_rfl,
    fun b hb => toBatchesF_mem h1 docs.length docs b hb le_rfl,
    fun b hb => toBatchesF_dropLast h1 docs.length docs b hb le_rfl⟩

/-- Witness for C7: the spec scenario — 3 documents with batch size 2
produce exactly 2 batches, and a fault-free ingest stores all 3
(`count() == 3`). -/
theorem c7_witness :
    (toBatches 2 [(⟨"r1", "recipe", "Dal Makhani uses lentils, butter, cream", []⟩ : RagDoc),
        ⟨"r2", "recipe", "text two", []⟩, ⟨"r3", "recipe", "text three", []⟩]).flatten
      = [(⟨"r1", "recipe", "Dal Makhani uses lentils, butter, cream", []⟩ : RagDoc),
        ⟨"r2", "recipe", "text two", []⟩, ⟨"r3", "recipe", "text three", []⟩] ∧
    (toBatches 2 [(⟨"r1", "recipe", "Dal Makhani uses lentils, butter, cream", []⟩ : RagDoc),
        ⟨"r2", "recipe", "text two", []⟩, ⟨"r3", "recipe", "text three", []⟩]).length = 2 ∧
    (storeDocumentsBatch envOk (fun _ => [])
        [(⟨"r1", "recipe", "Dal Makhani uses lentils, butter, cream", []⟩ : RagDoc),
         ⟨"r2", "recipe", "text two", []⟩, ⟨"r3", "recipe", "text three", []⟩] 2 []).1.length = 3 :=
  ⟨(c7_batch_partition _ 2 (by decide)).1, by decide, by decide⟩

/-! ## Lemmas about the retry loop and the batch loop -/

theorem retryLoop_attempts (fails : Nat → Bool) (added orig : List StoredEntry) :
    ∀ (rem a : Nat), (retryLoop fails added orig a rem).attempts ≤ rem := by
  intro rem
  induction rem with
  | zero => intro a; simp [retryLoop]
  | succ rem ih =>
    intro a
    rw [retryLoop]
    by_cases hf : fails a = true
    · rw [if_pos hf]
      by_cases h0 : rem = 0
      · rw [if_pos h0]; exact Nat.succ_le_succ (Nat.zero_le rem)
      · rw [if_neg h0]
        exact Nat.succ_le_succ (ih (a + 1))
    · rw [if_neg hf]; exact Nat.succ_le_succ (Nat.zero_le rem)

theorem retryLoop_sleeps (fails : Nat → Bool) (added orig : List StoredEntry) :
    ∀ (rem a : Nat), ∀ s ∈ (retryLoop fails added orig a rem).retrySleeps, s = 2 := by
  intro rem
  induction rem with
  | zero => intro a s hs; simp [retryLoop] at hs
  | succ rem ih =>
    intro a s hs
    rw [retryLoop] at hs
    by_cases hf : fails a = true
    · rw [if_pos hf] at hs
      by_cases h0 : rem = 0
      · rw [if_pos h0] at hs; simp at hs
      · rw [if_neg h0] at hs
        simp only [List.mem_cons] at hs
        rcases hs with h | h
        · exact h
        · exact ih (a + 1) s h
    · rw [if_neg hf] at hs; simp at hs

theorem retryLoop_ok_iff (fails : Nat → Bool) (added orig : List StoredEntry) :
    ∀ (rem a : Nat),
      (retryLoop fails added orig a rem).ok = true ↔
        ∃ j, j < rem ∧ fails (a + j) = false := by
  intro rem
  induction rem with
  | zero => intro a; simp [retryLoop]
  | succ rem ih =>
    intro a
    rw [retryLoop]
    by_cases hf : fails a = true
    · rw [if_pos hf]
      by_cases h0 : rem = 0
      · rw [if_pos h0]
        subst h0
        simp only [show (⟨orig, false, 1, []⟩ : RetryOutcome).ok = false from rfl]
        constructor
        · intro h; cases h
        · rintro ⟨j, hj, hfj⟩
          have : j = 0 := by omega
          subst this
          rw [Nat.add_zero] at hfj
          rw [hf] at hfj; cases hfj
      · rw [if_neg h0]
        simp only []
        rw [ih (a + 1)]
        constructor
        · rintro ⟨j, hj, hfj⟩
          exact ⟨j + 1, by omega, by rw [show a + (j + 1) = a + 1 + j by omega]; exact hfj⟩
        · rintro ⟨j, hj, hfj⟩
          match j with
          | 0 => rw [Nat.add_zero] at hfj; rw [hf] at hfj; cases hfj
          | j + 1 =>
            exact ⟨j, by omega, by rw [show a + 1 + j = a + (j + 1) by omega]; exact hfj⟩
    · rw [if_neg hf]
      constructor
      · intro _
        exact ⟨0, by omega, by simpa using hf⟩
      · intro _
        rfl

theorem retryLoop_coll (fails : Nat → Bool) (added orig : List StoredEntry) :
    ∀ (rem a : Nat),
      (retryLoop fails added orig a rem).coll =
        if (retryLoop fails added orig a rem).ok then added else orig := by
  intro rem
  induction rem with
  | zero => intro a; simp [retryLoop]
  | succ rem ih =>
    intro a
    rw [retryLoop]
    by_cases hf : fails a = true
    · rw [if_pos hf]
      by_cases h0 : rem = 0
      · rw [if_pos h0]; simp
      · rw [if_neg h0]
        simpa using ih (a + 1)
    · rw [if_neg hf]; simp

theorem batchOk_iff (env : Nat → Nat → Bool) (i : Nat) :
    batchOk env i = true ↔ ∃ j, j < 3 ∧ env i j = false := by
  simp [batchOk, List.any_eq_true, List.mem_range, Bool.not_eq_true']

theorem storeBatch_ok (env : Nat → Nat → Bool) (encode : String → List ℚ)
    (i : Nat) (coll : List StoredEntry) (batch : List RagDoc) :
    (storeBatch env encode i coll batch).ok = batchOk env i := by
  by_cases h : batchOk env i = true
  · rw [h, storeBatch, retryLoop_ok_iff]
    rcases (batchOk_iff env i).mp h with ⟨j, hj, hfj⟩
    exact ⟨j, hj, by simpa using hfj⟩
  · rw [Bool.not_eq_true] at h
    rw [h, storeBatch]
    rw [Bool.eq_false_iff]
    intro hok
    rcases (retryLoop_ok_iff (env i) _ coll 3 0).mp hok with ⟨j, hj, hfj⟩
    have : batchOk env i = true := (batchOk_iff env i).mpr ⟨j, hj, by simpa using hfj⟩
    rw [h] at this; cases this

theorem storeBatch_coll (env : Nat → Nat → Bool) (encode : String → List ℚ)
    (i : Nat) (coll : List StoredEntry) (batch : List RagDoc) :
    (storeBatch env encode i coll batch).coll =
      if batchOk env i then chromaAdd coll (mkEntries encode batch) else coll := by
  rw [show (storeBatch env encode i coll batch).coll =
      (retryLoop (env i) (chromaAdd coll (mkEntries encode batch)) coll 0 3).coll from rfl,
    retryLoop_coll]
  rw [show (retryLoop (env i) (chromaAdd coll (mkEntries encode batch)) coll 0 3).ok =
      (storeBatch env encode i coll batch).ok from rfl, storeBatch_ok]

theorem ingestAll_fst (env : Nat → Nat → Bool) (encode : String → List ℚ) :
    ∀ (batches : List (List RagDoc)) (i : Nat) (coll : List StoredEntry),
      (ingestAll env encode batches i coll).1 = ingestRef env encode batches i coll := by
  intro batches
  induction batches with
  | nil => intro i coll; rfl
  | cons b bs ih =>
    intro i coll
    rw [ingestAll, ingestRef]
    simp only []
    rw [ih (i + 1) (storeBatch env encode i coll b).coll, storeBatch_coll]

/-- C6: each batch upsert is attempted at most 3 times
(`max_retries = 3`, build_vector_database.py line 228), every inter-retry
delay is the fixed `time.sleep(2)` (line 242), and the batch loop is
equivalent to committing each batch independently exactly when its retry
loop succeeds — a batch that exhausts its retries leaves the collection
unchanged and the loop `continue`s, so every later batch still executes
(lines 263-266).  The last conjunct is the spec's fault-injection
scenario: with a store stub failing exactly batch 0, batch 1 of
`[r1, r2, r3]` at batch size 2 still succeeds and stores `r3`. -/
theorem c6_retry_containment :
    (∀ (env : Nat → Nat → Bool) (encode : String → List ℚ) (i : Nat)
        (coll : List StoredEntry) (batch : List RagDoc),
      (storeBatch env encode i coll batch).attempts ≤ 3 ∧
      ∀ s ∈ (storeBatch env encode i coll batch).retrySleeps, s = 2) ∧
    (∀ (env : Nat → Nat → Bool) (encode : String → List ℚ)
        (batches : List (List RagDoc)) (i : Nat) (coll : List StoredEntry),
      (ingestAll env encode batches i coll).1 = ingestRef env encode batches i coll) ∧
    ((storeDocumentsBatch (fun b _ => b = 0) (fun _ => [])
        [⟨"r1", "recipe", "one", []⟩, ⟨"r2", "recipe", "two", []⟩,
         ⟨"r3", "recipe", "three", []⟩] 2 []).1.map StoredEntry.id = ["r3"] ∧
     (storeDocumentsBatch (fun b _ => b = 0) (fun _ => [])
        [⟨"r1", "recipe", "one", []⟩, ⟨"r2", "recipe", "two", []⟩,
         ⟨"r3", "recipe", "three", []⟩] 2 []).2 = 1) :=
  ⟨fun env encode i coll batch =>
    ⟨retryLoop_attempts (env i) _ coll 3 0,
     fun s hs => retryLoop_sleeps (env i) _ coll 3 0 s hs⟩,
   fun env encode batches i coll => ingestAll_fst env encode batches i coll,
   by decide, by decide⟩

/-- Witness for C6: a store stub whose first attempt fails and second
succeeds makes exactly one 2-second inter-retry sleep, within the
3-attempt bound. -/
theorem c6_witness :
    (storeBatch (fun _ a => a = 0) (fun _ => []) 0 [] [⟨"r1", "recipe", "one", []⟩]).retrySleeps
        = [2] ∧
    (storeBatch (fun _ a => a = 0) (fun _ => []) 0 [] [⟨"r1", "recipe", "one", []⟩]).attempts ≤ 3 ∧
    (2 : Nat) = 2 :=
  ⟨by decide,
   (c6_retry_containment.1 (fun _ a => a = 0) (fun _ => []) 0 [] [⟨"r1", "recipe", "one", []⟩]).1,
   (c6_retry_containment.1 (fun _ a => a = 0) (fun _ => []) 0 [] [⟨"r1", "recipe", "one", []⟩]).2
     2 (by decide)⟩

/-! ## Lemmas about `collection.add` and the ingest loop -/

theorem idMem_append (coll : List StoredEntry) (e : StoredEntry) (x : String) :
    idMem (coll ++ [e]) x = (idMem coll x || decide (e.id = x)) := by
  simp [idMem, List.any_append]

theorem chromaAdd_mono {coll : List StoredEntry} {x : String}
    (new : List StoredEntry) (h : idMem coll x = true) :
    idMem (chromaAdd coll new) x = true := by
  induction new generalizing coll with
  | nil => exact h
  | cons e rest ih =>
    rw [show chromaAdd coll (e :: rest) =
        chromaAdd (if coll.any (fun y => y.id = e.id) then coll else coll ++ [e]) rest
      from rfl]
    by_cases hc : coll.any (fun y => y.id = e.id) = true
    · rw [if_pos hc]; exact ih h
    · rw [if_neg hc]
      refine ih ?_
      rw [idMem_append, h, Bool.true_or]

theorem chromaAdd_self {new : List StoredEntry} {e : StoredEntry}
    (he : e ∈ new) (coll : List StoredEntry) :
    idMem (chromaAdd coll new) e.id = true := by
  induction new generalizing coll with
  | nil => simp at he
  | cons f rest ih =>
    rw [show chromaAdd coll (f :: rest) =
        chromaAdd (if coll.any (fun y => y.id = f.id) then coll else coll ++ [f]) rest
      from rfl]
    rcases List.mem_cons.mp he with h | h
    · subst h
      by_cases hc : coll.any (fun y => y.id = e.id) = true
      · rw [if_pos hc]; exact chromaAdd_mono rest hc
      · rw [if_neg hc]
        refine chromaAdd_mono rest ?_
        rw [idMem_append]
        simp
    · by_cases hc : coll.any (fun y => y.id = f.id) = true
      · rw [if_pos hc]; exact ih h _
      · rw [if_neg hc]; exact ih h _

theorem chromaAdd_nop {new coll : List StoredEntry}
    (h : ∀ e ∈ new, idMem coll e.id = true) : chromaAdd coll new = coll := by
  induction new with
  | nil => rfl
  | cons e rest ih =>
    rw [show chromaAdd coll (e :: rest) =
        chromaAdd (if coll.any (fun y => y.id = e.id) then coll else coll ++ [e]) rest
      from rfl]
    have hc : (coll.any fun y => decide (y.id = e.id)) = true :=
      h e (List.mem_cons_self e rest)
    rw [if_pos hc]
    exact ih fun f hf => h f (List.mem_cons_of_mem e hf)

theorem idMem_iff_mem_map {coll : List StoredEntry} {x : String} :
    idMem coll x = true ↔ x ∈ coll.map StoredEntry.id := by
  simp only [idMem, List.any_eq_true, decide_eq_true_eq, List.mem_map]

theorem chromaAdd_nodup {coll : List StoredEntry} (new : List StoredEntry)
    (h : (coll.map StoredEntry.id).Nodup) :
    ((chromaAdd coll new).map StoredEntry.id).Nodup := by
  induction new generalizing coll with
  | nil => exact h
  | cons e rest ih =>
    rw [show chromaAdd coll (e :: rest) =
        chromaAdd (if coll.any (fun y => y.id = e.id) then coll else coll ++ [e]) rest
      from rfl]
    by_cases hc : coll.any (fun y => y.id = e.id) = true
    · rw [if_pos hc]; exact ih h
    · rw [if_neg hc]
      refine ih ?_
      rw [List.map_append]
      refine List.Nodup.append h (by simp) ?_
      intro x hx hx1
      rcases List.mem_singleton.mp hx1 with rfl
      exact hc (idMem_iff_mem_map.mpr hx)

theorem ingestRef_mono (env : Nat → Nat → Bool) (encode : String → List ℚ) :
    ∀ (batches : List (List RagDoc)) (i : Nat) {coll : List StoredEntry} {x : String},
      idMem coll x = true → idMem (ingestRef env encode batches i coll) x = true := by
  intro batches
  induction batches with
  | nil => intro i coll x h; exact h
  | cons b bs ih =>
    intro i coll x h
    rw [ingestRef]
    refine ih (i + 1) ?_
    by_cases hc : batchOk env i = true
    · rw [if_pos hc]; exact chromaAdd_mono _ h
    · rw [if_neg hc]; exact h

theorem batchOk_envOk (i : Nat) : batchOk envOk i = true := rfl

theorem ingestRef_contains (encode : String → List ℚ) :
    ∀ (batches : List (List RagDoc)) (i : Nat) (coll : List StoredEntry)
      (b : List RagDoc), b ∈ batches → ∀ e ∈ mkEntries encode b,
      idMem (ingestRef envOk encode batches i coll) e.id = true := by
  intro batches
  induction batches with
  | nil => intro i coll b hb; simp at hb
  | cons b0 bs ih =>
    intro i coll b hb e he
    rw [ingestRef, if_pos (batchOk_envOk i)]
    rcases List.mem_cons.mp hb with h | h
    · subst h
      exact ingestRef_mono envOk encode bs (i + 1) (chromaAdd_self he coll)
    · exact ih (i + 1) _ b h e he

theorem ingestRef_nop (encode : String → List ℚ) :
    ∀ (batches : List (List RagDoc)) (i : Nat) (coll : List StoredEntry),
      (∀ b ∈ batches, ∀ e ∈ mkEntries encode b, idMem coll e.id = true) →
      ingestRef envOk encode batches i coll = coll := by
  intro batches
  induction batches with
  | nil => intro i coll _; rfl
  | cons b0 bs ih =>
    intro i coll h
    rw [ingestRef, if_pos (batchOk_envOk i)]
    rw [chromaAdd_nop (h b0 (List.mem_cons_self b0 bs))]
    exact ih (i + 1) coll fun b hb => h b (List.mem_cons_of_mem b0 hb)

theorem ingestRef_nodup (env : Nat → Nat → Bool) (encode : String → List ℚ) :
    ∀ (batches : List (List RagDoc)) (i : Nat) {coll : List StoredEntry},
      (coll.map StoredEntry.id).Nodup →
      ((ingestRef env encode batches i coll).map StoredEntry.id).Nodup := by
  intro batches
  induction batches with
  | nil => intro i coll h; exact h
  | cons b bs ih =>
    intro i coll h
    rw [ingestRef]
    refine ih (i + 1) ?_
    by_cases hc : batchOk env i = true
    · rw [if_pos hc]; exact chromaAdd_nodup _ h
    · rw [if_neg hc]; exact h

theorem toBatches_singleton (bs : Nat) (d : RagDoc) : toBatches bs [d] = [[d]] := by
  rw [toBatches]
  show toBatchesF bs 1 [d] = [[d]]
  rw [toBatchesF]
  simp [toBatchesF]

/-- C1 counterexample: re-ingesting id `r1` with new text does NOT replace
the stored text/metadata/vector — `collection.add` (build_vector_database.py
line 231) is an insert, not an upsert, so the previously stored record
survives unchanged.  The claim's replacement clause is therefore false at
this concrete input. -/
theorem c1_counterexample :
    (storeDocumentsBatch envOk (fun _ => []) [⟨"r1", "recipe", "new text", []⟩] 20
        ((storeDocumentsBatch envOk (fun _ => []) [⟨"r1", "recipe", "old text", []⟩] 20 []).1)).1.map
        StoredEntry.doc = ["old text"] ∧
    ("old text" : String) ≠ "new text" :=
  ⟨by decide, by decide⟩

/-- C1 amended: ingesting the same Document sequence into an empty
collection twice yields the same collection — in particular the same
`count()` — and ingestion never duplicates an id; but re-ingesting a
document whose id already exists leaves the existing record (text,
metadata, vector) unchanged rather than replacing it, because the code
calls the store's insert (`add`), not upsert. -/
theorem c1_add_semantics :
    ∀ (encode : String → List ℚ) (docs : List RagDoc) (bs : Nat),
      ((storeDocumentsBatch envOk encode docs bs
          ((storeDocumentsBatch envOk encode docs bs []).1)).1
        = (storeDocumentsBatch envOk encode docs bs []).1 ∧
       (storeDocumentsBatch envOk encode docs bs
          ((storeDocumentsBatch envOk encode docs bs []).1)).1.length
        = (storeDocumentsBatch envOk encode docs bs []).1.length ∧
       (((storeDocumentsBatch envOk encode docs bs []).1).map StoredEntry.id).Nodup) ∧
      (∀ (coll : List StoredEntry) (d : RagDoc), idMem coll d.id = true →
        (storeDocumentsBatch envOk encode [d] bs coll).1 = coll) := by
  intro encode docs bs
  have honce :
      (storeDocumentsBatch envOk encode docs bs []).1
        = ingestRef envOk encode (toBatches bs docs) 0 [] := by
    rw [storeDocumentsBatch, ingestAll_fst]
  have htwice :
      (storeDocumentsBatch envOk encode docs bs
          ((storeDocumentsBatch envOk encode docs bs []).1)).1
        = (storeDocumentsBatch envOk encode docs bs []).1 := by
    rw [storeDocumentsBatch, ingestAll_fst]
    refine ingestRef_nop encode (toBatches bs docs) 0 _ ?_
    intro b hb e he
    rw [honce]
    exact ingestRef_contains encode (toBatches bs docs) 0 [] b hb e he
  refine ⟨⟨htwice, by rw [htwice], ?_⟩, ?_⟩
  · rw [honce]
    exact ingestRef_nodup envOk encode (toBatches bs docs) 0 (by simp)
  · intro coll d hd
    rw [storeDocumentsBatch, ingestAll_fst, toBatches_singleton]
    refine ingestRef_nop encode [[d]] 0 coll ?_
    intro b hb e he
    rcases List.mem_singleton.mp hb with rfl
    rcases List.mem_singleton.mp (by simpa [mkEntries] using he) with rfl
    exact hd

/-- Witness for C1: a collection already holding id `r1`; re-ingesting a
document with id `r1` leaves the collection unchanged. -/
theorem c1_witness :
    idMem [⟨"r1", "old text", [], []⟩]
        (RagDoc.id ⟨"r1", "recipe", "new text", []⟩) = true ∧
    (storeDocumentsBatch envOk (fun _ => []) [⟨"r1", "recipe", "new text", []⟩] 20
        [⟨"r1", "old text", [], []⟩]).1 = [⟨"r1", "old text", [], []⟩] :=
  ⟨by decide,
   (c1_add_semantics (fun _ => []) [⟨"r1", "recipe", "new text", []⟩] 20).2
     [⟨"r1", "old text", [], []⟩] ⟨"r1", "recipe", "new text", []⟩ (by decide)⟩

/-! ## C2: faults versus empty results in the search functions -/

/-- C2 counterexample: a query-execution fault (the store raising, here
`"store unreachable"`) is returned by every search function as the empty
list — the `except` blocks at build_vector_database.py lines 329-331,
359-361 and 388-390 print and `return []` — so a fault is NOT reported to
the caller as an error and is indistinguishable from the valid
no-close-match outcome (also `[]`). -/
theorem c2_counterexample :
    searchRecipeIngredients (Except.error "store unreachable") = [] ∧
    searchIngredientUsage (Except.error "store unreachable") = [] ∧
    searchGeneralFood (Except.error "store unreachable") = [] ∧
    searchRecipeIngredients (Except.ok ⟨[], [], []⟩) = [] :=
  ⟨rfl, rfl, rfl, by decide⟩

/-- C2 amended: for every query-execution fault, each of the three search
functions catches the exception and returns the empty list (logging to the
console only), identical to the value returned for the valid
no-close-match outcome — the caller cannot distinguish a fault from an
empty result set by the return value. -/
theorem c2_fault_as_empty :
    ∀ e : String,
      searchRecipeIngredients (Except.error e) = [] ∧
      searchIngredientUsage (Except.error e) = [] ∧
      searchGeneralFood (Except.error e) = [] ∧
      searchRecipeIngredients (Except.ok ⟨[], [], []⟩) = [] :=
  fun _ => ⟨rfl, rfl, rfl, by decide⟩

/-! ## Lemmas about the search formatting loop -/

theorem rowsFrom_spec {α β : Type} (docs : List String) (metas : List α)
    (dists : List ℚ) (mk : String → α → ℚ → β) :
    ∀ (is : List Nat) (l : List β), rowsFrom docs metas dists mk is = some l →
      l.length = is.length ∧
      ∀ (j i : Nat), is.get? j = some i →
        ∃ doc m d, docs.get? i = some doc ∧ metas.get? i = some m ∧
          dists.get? i = some d ∧ l.get? j = some (mk doc m d) := by
  intro is
  induction is with
  | nil =>
    intro l hl
    rw [rowsFrom] at hl
    rcases Option.some_inj.mp hl with rfl
    exact ⟨rfl, fun j i hj => by simp at hj⟩
  | cons i0 is ih =>
    intro l hl
    rw [rowsFrom] at hl
    split at hl
    · rename_i doc m d h1 h2 h3
      split at hl
      · rename_i l0 h4
        rcases Option.some_inj.mp hl with rfl
        obtain ⟨hlen, hrest⟩ := ih l0 h4
        refine ⟨by simp [hlen], fun j i hj => ?_⟩
        match j with
        | 0 =>
          rw [List.get?_cons_zero] at hj
          rcases Option.some_inj.mp hj with rfl
          exact ⟨doc, m, d, h1, h2, h3, by simp⟩
        | j + 1 =>
          rw [List.get?_cons_succ] at hj
          obtain ⟨doc1, m1, d1, ha, hb, hc, hd⟩ := hrest j i hj
          exact ⟨doc1, m1, d1, ha, hb, hc, by simpa using hd⟩
      · simp at hl
    · simp at hl

theorem searchCore_get {α β : Type} (mk : String → α → ℚ → β)
    (reply : QueryReply α) (j : Nat) (r : β)
    (hr : (searchCore mk (Except.ok reply)).get? j = some r) :
    ∃ doc m d, reply.documents.get? j = some doc ∧
      reply.metadatas.get? j = some m ∧ reply.distances.get? j = some d ∧
      r = mk doc m d := by
  rw [searchCore] at hr
  cases h4 : rowsFrom reply.documents reply.metadatas reply.distances mk
      (List.range reply.documents.length) with
  | none => rw [h4] at hr; simp at hr
  | some l =>
    rw [h4] at hr
    obtain ⟨hlen, hspec⟩ := rowsFrom_spec _ _ _ mk _ l h4
    have hjl : j < l.length := (List.get?_eq_some.mp hr).1
    have hrange : (List.range reply.documents.length).get? j = some j := by
      rw [List.get?_range]
      rw [hlen, List.length_range] at hjl
      exact hjl
    obtain ⟨doc, m, d, h1, h2, h3, h5⟩ := hspec j j hrange
    exact ⟨doc, m, d, h1, h2, h3, Option.some_inj.mp (hr.symm.trans h5)⟩

/-! ## C4: confidence is exactly one minus the reported distance -/

/-- C4: in each of the three search functions, the `confidence` field of
the j-th formatted result equals exactly `1 − distance` for the j-th
distance reported by the store (`'confidence': 1 - results['distances'][0][i]`,
build_vector_database.py lines 322, 352, 381); in particular distance
`0.1` yields confidence `0.9` (witness). -/
theorem c4_confidence_from_distance :
    (∀ (reply : QueryReply IngredientSearchMeta) (j : Nat)
        (r : IngredientSearchResult) (d : ℚ),
      (searchIngredientUsage (Except.ok reply)).get? j = some r →
      reply.distances.get? j = some d → r.confidence = 1 - d) ∧
    (∀ (reply : QueryReply RecipeSearchMeta) (j : Nat)
        (r : RecipeSearchResult) (d : ℚ),
      (searchRecipeIngredients (Except.ok reply)).get? j = some r →
      reply.distances.get? j = some d → r.confidence = 1 - d) ∧
    (∀ (reply : QueryReply GeneralSearchMeta) (j : Nat)
        (r : GeneralSearchResult) (d : ℚ),
      (searchGeneralFood (Except.ok reply)).get? j = some r →
      reply.distances.get? j = some d → r.confidence = 1 - d) := by
  refine ⟨fun reply j r d hr hd => ?_, fun reply j r d hr hd => ?_,
    fun reply j r d hr hd => ?_⟩
  all_goals
    obtain ⟨doc, m, d1, h1, h2, h3, h5⟩ := searchCore_get _ reply j r hr
    rcases Option.some_inj.mp (h3.symm.trans hd) with rfl
    rw [h5]
    rfl

/-! ## C3: confidence bounds and ordering -/

/-- C3 counterexample: `search_recipe_ingredients` applies
`confidence = 1 - distance` with no clamping and keeps the store's
order with no re-sorting, so for a store reporting distance `3/2` the
returned confidence is `1 - 3/2 = -1/2 < 0`, and for a store reporting
distances `[1/2, 0]` the returned confidences `[1/2, 1]` are not in
non-increasing order — the claim fails for these distance values. -/
theorem c3_counterexample :
    ((searchRecipeIngredients (Except.ok
        ⟨["doc1"],
         [⟨"Dal Makhani", some "lentils", "Punjabi", "Lunch", "kaggle_archanas_kitchen"⟩],
         [3/2]⟩)).map (fun r => r.confidence) = [1 - (3/2 : ℚ)] ∧
      1 - (3/2 : ℚ) = -(1/2) ∧ ¬(0 ≤ 1 - (3/2 : ℚ))) ∧
    ¬ List.Pairwise (fun a b : ℚ => a ≥ b)
      ((searchRecipeIngredients (Except.ok
        ⟨["a", "b"],
         [⟨"A", none, "c", "c", "s"⟩, ⟨"B", none, "c", "c", "s"⟩],
         [1/2, 0]⟩)).map (fun r => r.confidence)) := by
  refine ⟨⟨rfl, by norm_num, by norm_num⟩, ?_⟩
  intro h
  rw [show ((searchRecipeIngredients (Except.ok
      (⟨["a", "b"],
        [⟨"A", none, "c", "c", "s"⟩, ⟨"B", none, "c", "c", "s"⟩],
        [1/2, 0]⟩ : QueryReply RecipeSearchMeta))).map (fun r => r.confidence))
      = [1 - (1/2 : ℚ), 1 - 0] from rfl] at h
  have h1 := (List.pairwise_cons.mp h).1 (1 - 0) (List.mem_singleton.mpr rfl)
  norm_num at h1

/-- C3 amended: the returned sequence keeps the store's order and maps
distance `d` to confidence `1 − d`, so confidences lie in `[0, 1]`
whenever every reported distance lies in `[0, 1]` (the normalized-metric
assumption the spec itself records), and are in non-increasing order
whenever the store reports distances in non-decreasing order (ChromaDB's
native nearest-first order); the code neither clamps nor re-sorts. -/
theorem c3_confidence_conditional :
    ∀ reply : QueryReply RecipeSearchMeta,
      ((∀ d ∈ reply.distances, 0 ≤ d ∧ d ≤ 1) →
        ∀ r ∈ searchRecipeIngredients (Except.ok reply),
          0 ≤ r.confidence ∧ r.confidence ≤ 1) ∧
      (List.Pairwise (fun a b : ℚ => a ≤ b) reply.distances →
        List.Pairwise (fun a b : ℚ => a ≥ b)
          ((searchRecipeIngredients (Except.ok reply)).map fun r => r.confidence)) := by
  intro reply
  constructor
  · intro hb r hr
    obtain ⟨j, hj⟩ := List.mem_iff_get?.mp hr
    obtain ⟨doc, m, d, h1, h2, h3, h5⟩ := searchCore_get _ reply j r hj
    have hd := hb d (List.get?_mem h3)
    subst h5
    have hc : (mkRecipeResult doc m d).confidence = 1 - d := rfl
    rw [hc]
    constructor
    · linarith [hd.2]
    · linarith [hd.1]
  · intro hs
    rw [List.pairwise_iff_get]
    intro i j hij
    have hi1 : (i : Nat) < (searchRecipeIngredients (Except.ok reply)).length := by
      have := i.2; simpa using this
    have hj1 : (j : Nat) < (searchRecipeIngredients (Except.ok reply)).length := by
      have := j.2; simpa using this
    obtain ⟨doci, mi, di, hi2, hi3, hi4, hi5⟩ :=
      searchCore_get mkRecipeResult reply i
        ((searchRecipeIngredients (Except.ok reply)).get ⟨i, hi1⟩)
        (List.get?_eq_get hi1)
    obtain ⟨docj, mj, dj, hj2, hj3, hj4, hj5⟩ :=
      searchCore_get mkRecipeResult reply j
        ((searchRecipeIngredients (Except.ok reply)).get ⟨j, hj1⟩)
        (List.get?_eq_get hj1)
    have hdi : (i : Nat) < reply.distances.length := (List.get?_eq_some.mp hi4).1
    have hdj : (j : Nat) < reply.distances.length := (List.get?_eq_some.mp hj4).1
    have hle : di ≤ dj := by
      have hrel := List.pairwise_iff_get.mp hs ⟨i, hdi⟩ ⟨j, hdj⟩ (by simpa using hij)
      have hei : reply.distances.get ⟨i, hdi⟩ = di :=
        Option.some_inj.mp ((List.get?_eq_get hdi).symm.trans hi4)
      have hej : reply.distances.get ⟨j, hdj⟩ = dj :=
        Option.some_inj.mp ((List.get?_eq_get hdj).symm.trans hj4)
      rw [hei, hej] at hrel
      exact hrel
    rw [List.get_map, List.get_map]
    have hci : ((searchRecipeIngredients (Except.ok reply)).get ⟨i, hi1⟩).confidence
        = 1 - di := by rw [hi5]; rfl
    have hcj : ((searchRecipeIngredients (Except.ok reply)).get ⟨j, hj1⟩).confidence
        = 1 - dj := by rw [hj5]; rfl
    show ((searchRecipeIngredients (Except.ok reply)).get _).confidence
      ≥ ((searchRecipeIngredients (Except.ok reply)).get _).confidence
    rw [show ((searchRecipeIngredients (Except.ok reply)).get
        ⟨(i : Nat), by simpa using i.2⟩) =
        ((searchRecipeIngredients (Except.ok reply)).get ⟨i, hi1⟩) from rfl,
      show ((searchRecipeIngredients (Except.ok reply)).get
        ⟨(j : Nat), by simpa using j.2⟩) =
        ((searchRecipeIngredients (Except.ok reply)).get ⟨j, hj1⟩) from rfl,
      hci, hcj]
    linarith

/-- Witness for C3: distances `[1/10, 2/10]` are within `[0, 1]` and
non-decreasing, and the returned confidences are within bounds and
non-increasing. -/
theorem c3_witness :
    mkRecipeResult "a" ⟨"Dal Makhani", some "x", "Punjabi", "Lunch", "kaggle"⟩ (1/10)
        ∈ searchRecipeIngredients (Except.ok
          ⟨["a", "b"],
           [⟨"Dal Makhani", some "x", "Punjabi", "Lunch", "kaggle"⟩,
            ⟨"Roti", none, "Punjabi", "Dinner", "kaggle"⟩], [1/10, 2/10]⟩) ∧
    (0 ≤ (mkRecipeResult "a"
        ⟨"Dal Makhani", some "x", "Punjabi", "Lunch", "kaggle"⟩ (1/10)).confidence ∧
      (mkRecipeResult "a"
        ⟨"Dal Makhani", some "x", "Punjabi", "Lunch", "kaggle"⟩ (1/10)).confidence ≤ 1) ∧
    List.Pairwise (fun a b : ℚ => a ≥ b)
      ((searchRecipeIngredients (Except.ok
        ⟨["a", "b"],
         [⟨"Dal Makhani", some "x", "Punjabi", "Lunch", "kaggle"⟩,
          ⟨"Roti", none, "Punjabi", "Dinner", "kaggle"⟩],
         [1/10, 2/10]⟩)).map fun r => r.confidence) := by
  have hmem : mkRecipeResult "a"
      ⟨"Dal Makhani", some "x", "Punjabi", "Lunch", "kaggle"⟩ (1/10)
      ∈ searchRecipeIngredients (Except.ok
        (⟨["a", "b"],
          [⟨"Dal Makhani", some "x", "Punjabi", "Lunch", "kaggle"⟩,
           ⟨"Roti", none, "Punjabi", "Dinner", "kaggle"⟩],
          [1/10, 2/10]⟩ : QueryReply RecipeSearchMeta)) := by
    rw [show searchRecipeIngredients (Except.ok
        (⟨["a", "b"],
          [⟨"Dal Makhani", some "x", "Punjabi", "Lunch", "kaggle"⟩,
           ⟨"Roti", none, "Punjabi", "Dinner", "kaggle"⟩],
          [1/10, 2/10]⟩ : QueryReply RecipeSearchMeta))
      = [mkRecipeResult "a"
          ⟨"Dal Makhani", some "x", "Punjabi", "Lunch", "kaggle"⟩ (1/10),
         mkRecipeResult "b"
          ⟨"Roti", none, "Punjabi", "Dinner", "kaggle"⟩ (2/10)] from rfl]
    exact List.mem_cons_self _ _
  refine ⟨hmem, (c3_confidence_conditional _).1 ?_ _ hmem,
    (c3_confidence_conditional _).2 ?_⟩
  · intro d hd
    simp only [List.mem_cons, List.not_mem_nil, or_false] at hd
    rcases hd with rfl | rfl <;> constructor <;> norm_num
  · refine List.pairwise_cons.mpr ⟨?_, List.pairwise_singleton _ _⟩
    intro d hd
    rcases List.mem_singleton.mp hd with rfl
    norm_num

/-- Witness for C4: a store hit at distance `1/10` yields confidence
`1 − 1/10 = 9/10` in `search_ingredient_usage` (the spec's `paneer`
scenario). -/
theorem c4_witness :
    (searchIngredientUsage (Except.ok
        ⟨["Ingredient: paneer is used in Palak Paneer"],
         [⟨"paneer", "Palak Paneer", "Punjabi", "Lunch"⟩], [1/10]⟩)).get? 0
      = some (mkIngredientResult "Ingredient: paneer is used in Palak Paneer"
          ⟨"paneer", "Palak Paneer", "Punjabi", "Lunch"⟩ (1/10)) ∧
    (mkIngredientResult "Ingredient: paneer is used in Palak Paneer"
        ⟨"paneer", "Palak Paneer", "Punjabi", "Lunch"⟩ (1/10)).confidence
      = 1 - (1/10 : ℚ) ∧
    1 - (1/10 : ℚ) = 9/10 :=
  ⟨rfl,
   c4_confidence_from_distance.1
     ⟨["Ingredient: paneer is used in Palak Paneer"],
      [⟨"paneer", "Palak Paneer", "Punjabi", "Lunch"⟩], [1/10]⟩ 0
     (mkIngredientResult "Ingredient: paneer is used in Palak Paneer"
       ⟨"paneer", "Palak Paneer", "Punjabi", "Lunch"⟩ (1/10)) (1/10) rfl rfl,
   by norm_num⟩

/-! ## C5: the `min_confidence` filter of `display_search_results` -/

theorem displayFilterGo_eq {M : Type} (minC : ℚ) :
    ∀ (l : List (String × M × ℚ)) (i : Nat),
      displayFilterGo minC l i =
        ((l.enumFrom i).map fun p => (p.2.1, p.2.2.1, 1 - p.2.2.2, p.1)).filter
          fun t => minC ≤ t.2.2.1 := by
  intro l
  induction l with
  | nil => intro i; rfl
  | cons x rest ih =>
    intro i
    match x with
    | (doc, m, dist) =>
      rw [displayFilterGo, List.enumFrom_cons, List.map_cons, List.filter_cons]
      by_cases hc : minC ≤ 1 - dist
      · rw [if_pos hc, ih (i + 1)]
        simp [decide_eq_true hc]
      · rw [if_neg hc, ih (i + 1)]
        simp [decide_eq_false hc]

theorem displaySearchResults_ok {M : Type} (store : Nat → Except String (QueryReply M))
    (numResults : Nat) (minC : ℚ) (reply : QueryReply M)
    (h : store numResults = Except.ok reply) :
    displaySearchResults store numResults minC =
      if reply.documents.isEmpty then DisplayOutcome.noResults
      else if (displayFilter minC reply.documents reply.metadatas reply.distances).isEmpty
        then DisplayOutcome.belowThreshold
        else DisplayOutcome.shown
          (displayFilter minC reply.documents reply.metadatas reply.distances) := by
  rw [displaySearchResults, h]

/-- C5: in `display_search_results` the `min_confidence` filter runs
strictly after the store returned its `num_results` candidates: the kept
list equals the full formatted candidate list (confidence `1 − distance`
with retrieval rank, independent of the threshold) filtered by
`confidence ≥ min_confidence`; and when the filtered list is empty while
the store returned hits, the outcome is the `st.warning` branch
(`belowThreshold`), never the `st.error` one — an empty filtered list is a
non-error outcome. -/
theorem c5_filter_after_retrieval :
    ∀ {M : Type} (store : Nat → Except String (QueryReply M)) (numResults : Nat)
      (minC : ℚ) (reply : QueryReply M), store numResults = Except.ok reply →
      (displayFilter minC reply.documents reply.metadatas reply.distances
          = (specCandidates reply.documents reply.metadatas reply.distances).filter
              fun t => minC ≤ t.2.2.1) ∧
      (reply.documents ≠ [] →
        displayFilter minC reply.documents reply.metadatas reply.distances = [] →
        displaySearchResults store numResults minC = DisplayOutcome.belowThreshold) ∧
      (∀ e, displaySearchResults store numResults minC ≠ DisplayOutcome.errOut e) := by
  intro M store numResults minC reply hstore
  refine ⟨?_, ?_, ?_⟩
  · rw [displayFilter, displayFilterGo_eq, specCandidates]
    rfl
  · intro hne hemp
    rw [displaySearchResults_ok store numResults minC reply hstore]
    rw [if_neg (by simpa [List.isEmpty_eq_false] using hne)]
    rw [if_pos (by rw [hemp]; rfl)]
  · intro e
    rw [displaySearchResults_ok store numResults minC reply hstore]
    by_cases h1 : reply.documents.isEmpty = true
    · rw [if_pos h1]
      intro h; cases h
    · rw [if_neg h1]
      by_cases h2 : (displayFilter minC reply.documents reply.metadatas
          reply.distances).isEmpty = true
      · rw [if_pos h2]
        intro h; cases h
      · rw [if_neg h2]
        intro h; cases h

/-- Witness for C5: the spec scenario — a single hit at distance `1/10`
(confidence `9/10`) against `min_confidence = 95/100` yields an empty
filtered list and the warning outcome, not an error. -/
theorem c5_witness :
    ((⟨["paneer doc"], ["meta"], [1/10]⟩ : QueryReply String).documents ≠ []) ∧
    displayFilter (95/100) ["paneer doc"] ["meta"] [(1/10 : ℚ)] = [] ∧
    displaySearchResults
        (fun _ => Except.ok (⟨["paneer doc"], ["meta"], [1/10]⟩ : QueryReply String))
        5 (95/100)
      = DisplayOutcome.belowThreshold := by
  have hemp : displayFilter (95/100) ["paneer doc"] ["meta"] [(1/10 : ℚ)] = [] := by
    rw [displayFilter]
    rw [show zip3 ["paneer doc"] ["meta"] [(1/10 : ℚ)]
        = [("paneer doc", "meta", (1/10 : ℚ))] from rfl]
    rw [displayFilterGo]
    rw [if_neg (by norm_num)]
    rfl
  refine ⟨by simp, hemp, ?_⟩
  exact (c5_filter_after_retrieval
      (fun _ => Except.ok (⟨["paneer doc"], ["meta"], [1/10]⟩ : QueryReply String))
      5 (95/100) ⟨["paneer doc"], ["meta"], [1/10]⟩ rfl).2.1 (by simp) hemp

end NICS
